import Mathlib

/-!
Shallow embedding of the `sane-scan` wrapper (`src/lib.rs`) around the SANE
scanner ABI, together with theorems settling the specification claims.

The ABI entry points (`sane_read`, `sane_start`, `sane_control_option`,
`sane_get_option_descriptor`, `sane_get_parameters`, `sane_cancel`,
`sane_close`, `sane_init`) are modelled by explicit response parameters: each
wrapper function takes the responses the ABI would produce for the calls it
makes, and returns — besides its Rust result — the updated handle state, the
updated caller buffer, and the list of ABI entry points it invoked.
Machine integers are modelled as `Int` (i32) and `Nat` (u32/usize) with
explicit wrap-around where the source casts.
-/

set_option autoImplicit false

namespace SaneScan

/-- The SANE status enum (`sys::Status`, bindgen-renamed variants of
`SANE_Status`). -/
inductive Status where
  | Good
  | Unsupported
  | Cancelled
  | DeviceBusy
  | Inval
  | Eof
  | Jammed
  | NoDocs
  | CoverOpen
  | IoError
  | NoMem
  | AccessDenied
  deriving DecidableEq, Repr

/-- Rust `pub struct Error(pub sys::Status)` — the single error kind of the
wrapper. -/
structure Error where
  status : Status
  deriving DecidableEq, Repr

/-- Enum `sys::ValueType` (`SANE_Value_Type`). -/
inductive ValueType where
  | Bool
  | Int
  | Fixed
  | String
  | Button
  | Group
  deriving DecidableEq, Repr

/-- Enum `sys::Unit` (`SANE_Unit`); named `SaneUnit` because `Unit` is taken
by the Lean prelude. -/
inductive SaneUnit where
  | None
  | Pixel
  | Bit
  | Mm
  | Dpi
  | Percent
  | Microsecond
  deriving DecidableEq, Repr

/-- Enum `sys::Frame` (`SANE_Frame`). -/
inductive Frame where
  | Gray
  | Rgb
  | Red
  | Green
  | Blue
  deriving DecidableEq, Repr

/-- Record `sys::Parameters` (`SANE_Parameters`): i32 fields as produced by
the ABI parameter query (`last_frame` is `SANE_Bool`, an i32). -/
structure Parameters where
  format : Frame
  last_frame : Int
  bytes_per_line : Int
  pixels_per_line : Int
  lines : Int
  depth : Int
  deriving DecidableEq, Repr

/-- The content of a NUL-terminated C string (terminator stripped), as copied
into a `CString` by the wrapper. -/
abbrev CStr := List UInt8

/-- Rust's `std::ops::Range<i32>`: a half-open interval `start..end`
(the `end` field is named `stop` because `end` is a Lean keyword). -/
structure RustRange where
  start : Int
  stop : Int
  deriving DecidableEq, Repr

/-- Rust's `Range::<i32>::contains`: `start <= x && x < end`. -/
def RustRange.containsInt (r : RustRange) (x : Int) : Bool :=
  decide (r.start ≤ x) && decide (x < r.stop)

/-- Wrapper enum `OptionConstraint` (`lib.rs`). -/
inductive OptionConstraint where
  | None
  | StringList (strings : List CStr)
  | WordList (words : List Int)
  | Range (range : RustRange) (quant : Int)
  deriving DecidableEq, Repr

/-- Wrapper enum `DeviceOptionValue` (`lib.rs`); constructors are lowercased
because the source's capitalized names (`Bool`, `Int`, …) would shadow the
Lean types of their own arguments. -/
inductive DeviceOptionValue where
  | bool (b : Bool)
  | int (v : Int)
  | fixed (v : Int)
  | string (s : CStr)
  | button
  | group
  deriving DecidableEq, Repr

/-- Cast `i32 as u32`: reinterpret an i32 value as an unsigned 32-bit
value. -/
def u32OfI32 (x : Int) : Nat :=
  (x % (4294967296 : Int)).toNat

/-- Cast `i32 as usize`: sign-extend an i32 value to a 64-bit usize. -/
def usizeOfI32 (x : Int) : Nat :=
  (x % (18446744073709551616 : Int)).toNat

/-- Wrapper `DeviceHandle` state visible to the embedding: the `scanning`
flag (the raw ABI handle itself carries no modelled state). -/
structure DeviceHandle where
  scanning : Bool
  deriving DecidableEq, Repr

/-- ABI entry points the wrapper can invoke; wrapper functions return the
list of invocations they performed, in order. -/
inductive AbiEvent where
  | saneRead
  | saneCancel
  | saneClose
  | saneStart
  | saneGetParameters
  | saneControlOption
  | saneGetOptionDescriptor
  deriving DecidableEq, Repr

/-- Response of one `sane_read` call by a conforming backend: the status, and
the bytes the backend wrote into the front of the buffer (so the reported
`*length` out-parameter is `chunk.length`). -/
structure AbiReadResponse where
  status : Status
  chunk : List UInt8
  deriving DecidableEq, Repr

/-- Outcome of `DeviceHandle::read`: the Rust return value, the handle
afterwards, the caller's buffer afterwards, and the ABI calls made. -/
structure ReadOutcome where
  result : Except Error (Option Nat)
  handle : DeviceHandle
  buf : List UInt8
  events : List AbiEvent
  deriving Repr

/-- Embedding of `DeviceHandle::read` (`lib.rs` lines 246–273). `buf` is the
caller's buffer; `abi` is the response `sane_read` would produce if
called. -/
def DeviceHandle.read (h : DeviceHandle) (buf : List UInt8)
    (abi : AbiReadResponse) : ReadOutcome :=
  if !h.scanning then
    ⟨.ok none, h, buf, []⟩
  else
    let bytes_written := abi.chunk.length
    let buf' := abi.chunk ++ buf.drop bytes_written
    match abi.status with
    | .Eof =>
      if bytes_written = 0 then
        ⟨.ok none, { h with scanning := false }, buf', [.saneRead, .saneCancel]⟩
      else
        ⟨.ok (some bytes_written), h, buf', [.saneRead]⟩
    | .Good => ⟨.ok (some bytes_written), h, buf', [.saneRead]⟩
    | status => ⟨.error ⟨status⟩, h, buf', [.saneRead]⟩

/-- Embedding of `DeviceHandle::get_parameters` (`lib.rs` lines 234–244);
`abi` is the (status, written record) response of `sane_get_parameters`. -/
def DeviceHandle.get_parameters (abi : Status × Parameters) :
    Except Error Parameters :=
  if abi.1 ≠ .Good then .error ⟨abi.1⟩ else .ok abi.2

/-- Responses the ABI would give to the calls `start_scan` can make:
`sane_start`, then `sane_get_parameters`. -/
structure StartScanAbi where
  startStatus : Status
  paramsResponse : Status × Parameters

/-- Outcome of `DeviceHandle::start_scan`. -/
structure StartScanOutcome where
  result : Except Error Parameters
  handle : DeviceHandle
  events : List AbiEvent

/-- Embedding of `DeviceHandle::start_scan` (`lib.rs` lines 221–232). -/
def DeviceHandle.start_scan (h : DeviceHandle) (abi : StartScanAbi) :
    StartScanOutcome :=
  if abi.startStatus ≠ .Good then
    ⟨.error ⟨abi.startStatus⟩, h, [.saneStart]⟩
  else
    match DeviceHandle.get_parameters abi.paramsResponse with
    | .error e => ⟨.error e, h, [.saneStart, .saneGetParameters]⟩
    | .ok parameters =>
      ⟨.ok parameters, { h with scanning := true },
        [.saneStart, .saneGetParameters]⟩

/-- Embedding of `impl Drop for DeviceHandle` (`lib.rs` lines 131–141): the
ABI calls made when the handle is dropped. -/
def DeviceHandle.dropEvents (h : DeviceHandle) : List AbiEvent :=
  if h.scanning then [.saneCancel, .saneClose] else [.saneClose]

/-- Rust `pub struct Sane {}` — the library context. -/
structure Sane where
  deriving DecidableEq, Repr

set_option linter.unusedVariables false in
/-- Embedding of `Sane::init` (`lib.rs` lines 46–52); `abiStatus` is the
status `sane_init` would report for the given version code (the version code
is passed by mutable reference but its rewritten value is unused). -/
def Sane.init (versionCode : Int) (abiStatus : Status) : Except Error Sane :=
  if abiStatus ≠ .Good then .error ⟨abiStatus⟩ else .ok ⟨⟩

/-- The version code computed by `Sane::init_1_0` (`lib.rs` lines 54–61):
`build_ver_major << 24 | build_ver_minor << 16 | build_revision & 0xffff`
with major 1, minor 0, revision 0, in i32 arithmetic. -/
def Sane.init_1_0_versionCode : Int :=
  Int.lor (Int.lor ((1 : Int) <<< 24) ((0 : Int) <<< 16))
    (Int.land (0 : Int) 0xffff)

/-- Embedding of `Sane::init_1_0` (`lib.rs` lines 54–61). -/
def Sane.init_1_0 (abiStatus : Status) : Except Error Sane :=
  Sane.init Sane.init_1_0_versionCode abiStatus

/-- Memory reachable from the `constraint` union of an option descriptor,
tagged by the descriptor's `constraint_type` (reading the member selected by
the tag, as `get_options` does):
for `range`, the pointed-to `SANE_Range`;
for `word_list`, the i32 words at the pointer (length word first);
for `string_list`, the pointer array at the pointer (`none` is a null
pointer). -/
inductive ConstraintMem where
  | none
  | range (min max quant : Int)
  | wordList (mem : List Int)
  | stringList (mem : List (Option CStr))

/-- Constraint decoding performed by `get_options` (`lib.rs` lines
174–202). A word list reads its length word `L`, then `L as usize` further
words; a string list collects the strings before the first null pointer. -/
def decodeConstraint : ConstraintMem → OptionConstraint
  | .none => .None
  | .range min max quant => .Range ⟨min, max⟩ quant
  | .wordList mem =>
    match mem with
    | [] => .WordList []
    | list_len :: rest => .WordList (rest.take (usizeOfI32 list_len))
  | .stringList mem =>
    .StringList ((mem.takeWhile Option.isSome).filterMap id)

/-- Fields of the ABI option descriptor (`sys::OptionDescriptor`) consumed
by `get_options`: `size` and `cap` are `SANE_Int` (i32). -/
structure OptionDescriptor where
  name : CStr
  title : CStr
  desc : CStr
  type_ : ValueType
  unit : SaneUnit
  size : Int
  cap : Int
  constraint : ConstraintMem

/-- Wrapper struct `DeviceOption` (`lib.rs` lines 385–396); `cap` is the raw
u32 bitset (`OptionCapability::from_bits_unchecked` keeps all bits). -/
structure DeviceOption where
  option_idx : Int
  name : CStr
  title : CStr
  desc : CStr
  type_ : ValueType
  unit : SaneUnit
  size : Nat
  cap : Nat
  constraint : OptionConstraint

/-- The `DeviceOption` that `get_options` pushes for descriptor `d` at index
`idx` (`lib.rs` lines 204–214). -/
def mkDeviceOption (idx : Int) (d : OptionDescriptor) : DeviceOption :=
  { option_idx := idx
    name := d.name
    title := d.title
    desc := d.desc
    type_ := d.type_
    unit := d.unit
    size := u32OfI32 d.size
    cap := u32OfI32 d.cap
    constraint := decodeConstraint d.constraint }

/-- Responses the ABI would give to the calls `get_options` makes: the
option-count query (`sane_control_option` at index 0, giving a status and
the i32 written into the value slot), and `sane_get_option_descriptor` per
index (`none` is a null descriptor pointer). -/
structure GetOptionsAbi where
  countResponse : Status × Int
  descriptor : Int → Option OptionDescriptor

/-- The index list of the Rust loop `for option_idx in 1..option_count`:
the i32 values `1, …, option_count - 1`. -/
def optionIndices (option_count : Int) : List Int :=
  (List.range (option_count - 1).toNat).map (fun (i : Nat) => (i : Int) + 1)

/-- Descriptor-fetch loop of `get_options` (`lib.rs` lines 162–216).
`status` is the Rust `status` variable in scope at the null-descriptor check
(`lib.rs` line 166) — at that point it still holds the result of the
option-count query. -/
def getOptionsLoop (status : Status) (descriptor : Int → Option OptionDescriptor) :
    List Int → Except Error (List DeviceOption)
  | [] => .ok []
  | idx :: rest =>
    match descriptor idx with
    | .none => .error ⟨status⟩
    | .some d =>
      match getOptionsLoop status descriptor rest with
      | .error e => .error e
      | .ok opts => .ok (mkDeviceOption idx d :: opts)

/-- Embedding of `DeviceHandle::get_options` (`lib.rs` lines 144–219). -/
def DeviceHandle.get_options (abi : GetOptionsAbi) :
    Except Error (List DeviceOption) :=
  let (status, option_count_value) := abi.countResponse
  if status ≠ .Good then .error ⟨status⟩
  else getOptionsLoop status abi.descriptor (optionIndices option_count_value)

/-- Result of `DeviceHandle::get_option`, with distinguished outcomes for
the two non-value paths of the source: `panicked` for the `Button`/`Group`
panic, `ub` for reads the Rust code performs outside defined behaviour
(a `bool` load of a byte other than 0 or 1, a 4-byte load from a shorter
buffer, a C-string read with no NUL in the buffer). -/
inductive GetOptionResult where
  | ok (v : DeviceOptionValue)
  | err (e : Error)
  | panicked
  | ub
  deriving Repr

/-- Little-endian read of the first 4 bytes as an i32 (`*(ptr as *const
i32)` on the reference little-endian host); `none` when fewer than 4 bytes
are available (an out-of-bounds read in the source). -/
def i32At : List UInt8 → Option Int
  | b0 :: b1 :: b2 :: b3 :: _ =>
    let n : Nat := b0.toNat + 256 * b1.toNat + 65536 * b2.toNat +
      16777216 * b3.toNat
    some (if n < 2147483648 then (n : Int) else (n : Int) - 4294967296)
  | _ => .none

/-- Outcome of `DeviceHandle::get_option`: the result and the buffer that
was passed to the ABI get-value call. -/
structure GetOptionOutcome where
  result : GetOptionResult
  passedBuf : List UInt8

/-- Embedding of `DeviceHandle::get_option` (`lib.rs` lines 294–326).
`abi` maps the value buffer passed to `sane_control_option` (action
get-value) to the status and the buffer contents after the call. -/
def DeviceHandle.get_option (abi : List UInt8 → Status × List UInt8)
    (opt : DeviceOption) : GetOptionOutcome :=
  let value0 : List UInt8 := List.replicate opt.size 0
  let (status, value) := abi value0
  if status ≠ .Good then ⟨.err ⟨status⟩, value0⟩
  else
    let opt_value : GetOptionResult :=
      match opt.type_ with
      | .Bool =>
        match value.head? with
        | some b => if b = 0 then .ok (.bool false)
                    else if b = 1 then .ok (.bool true)
                    else .ub
        | .none => .ub
      | .Int =>
        match i32At value with
        | some v => .ok (.int v)
        | .none => .ub
      | .Fixed =>
        match i32At value with
        | some v => .ok (.fixed v)
        | .none => .ub
      | .String =>
        if value.contains 0 then .ok (.string (value.takeWhile (· != 0)))
        else .ub
      | .Button => .panicked
      | .Group => .panicked
    ⟨opt_value, value0⟩

/-- Outcome of the `read` loop inside `read_to_vec`. -/
structure LoopOutcome where
  image : List UInt8
  handle : DeviceHandle
  events : List AbiEvent

/-- The `while let Ok(Some(written)) = self.read(..)` loop of `read_to_vec`
(`lib.rs` lines 287–289), run against a finite list of `sane_read`
responses. Each iteration that reaches the ABI consumes one response;
theorems only drive the loop with response lists long enough to end it. -/
def readToVecLoop (h : DeviceHandle) (buf : List UInt8) (image : List UInt8) :
    List AbiReadResponse → LoopOutcome
  | [] => ⟨image, h, []⟩
  | r :: rest =>
    let o := h.read buf r
    match o.result with
    | .ok (some written) =>
      let o' := readToVecLoop o.handle o.buf (image ++ o.buf.take written) rest
      ⟨o'.image, o'.handle, o.events ++ o'.events⟩
    | _ => ⟨image, o.handle, o.events⟩

/-- Outcome of `DeviceHandle::read_to_vec`: the Rust result, the handle
afterwards, the ABI calls made, the capacity requested for the image
buffer, and the length of the working buffer passed to `read`. -/
structure ReadToVecOutcome where
  result : Except Error (List UInt8)
  handle : DeviceHandle
  events : List AbiEvent
  imageCapacity : Nat
  workBufLen : Nat

/-- Embedding of `DeviceHandle::read_to_vec` (`lib.rs` lines 275–292).
`paramsResponse` feeds the initial `get_parameters` call; `resps` are the
successive `sane_read` responses. The 1 MiB working buffer is created with
`set_len` and so holds arbitrary bytes; it is modelled as zeroed, which is
sound because only bytes freshly written by the ABI are ever copied out. -/
def DeviceHandle.read_to_vec (h : DeviceHandle)
    (paramsResponse : Status × Parameters) (resps : List AbiReadResponse) :
    ReadToVecOutcome :=
  match DeviceHandle.get_parameters paramsResponse with
  | .error e => ⟨.error e, h, [.saneGetParameters], 0, 0⟩
  | .ok parameters =>
    let imageCapacity :=
      usizeOfI32 parameters.bytes_per_line * usizeOfI32 parameters.lines
    let buf : List UInt8 := List.replicate (1024 * 1024) 0
    let o := readToVecLoop h buf [] resps
    ⟨.ok o.image, o.handle, .saneGetParameters :: o.events, imageCapacity,
      buf.length⟩

/-- True iff an `Except` result is the error case. -/
def isError {α : Type} : Except Error α → Bool
  | .error _ => true
  | .ok _ => false

/-- A concrete all-zero `Parameters` record, for witnesses. -/
def zeroParameters : Parameters :=
  ⟨.Gray, 0, 0, 0, 0, 0⟩

/-- A concrete `Bool`-typed `DeviceOption` of size 4, for witnesses. -/
def boolOption : DeviceOption :=
  ⟨1, [], [], [], .Bool, .None, 4, 0, .None⟩

/-- A concrete loop-continuing `sane_read` response: status `Good` with a
1024-byte chunk. -/
def goodKilobyte : AbiReadResponse :=
  ⟨.Good, List.replicate 1024 7⟩

/-- C1: with `scanning = true`, `read` on status `Eof` with 0 bytes written
returns `Ok(None)`, clears `scanning` and invokes `sane_cancel` exactly
once; on `Eof` with some bytes written it returns their count and leaves the
handle unchanged; on `Good` it returns the written count. -/
theorem read_scanning_spec (h : DeviceHandle) (buf : List UInt8)
    (r : AbiReadResponse) (hs : h.scanning = true) :
    (r.status = .Eof → r.chunk = [] →
      (h.read buf r).result = .ok none ∧
      (h.read buf r).handle.scanning = false ∧
      (h.read buf r).events.count .saneCancel = 1) ∧
    (r.status = .Eof → r.chunk ≠ [] →
      (h.read buf r).result = .ok (some r.chunk.length) ∧
      (h.read buf r).handle = h) ∧
    (r.status = .Good →
      (h.read buf r).result = .ok (some r.chunk.length) ∧
      (h.read buf r).handle = h) := by
  refine ⟨fun hst hch => ?_, fun hst hch => ?_, fun hst => ?_⟩
  · simp [DeviceHandle.read, hs, hst, hch]
  · have hlen : r.chunk.length ≠ 0 := by simpa using hch
    simp [DeviceHandle.read, hs, hst, hlen]
  · simp [DeviceHandle.read, hs, hst]

/-- Witness for `read_scanning_spec` at a concrete end-of-stream input. -/
theorem read_scanning_spec_witness :
    ((DeviceHandle.mk true).read [5] ⟨.Eof, []⟩).result = .ok none ∧
    ((DeviceHandle.mk true).read [5] ⟨.Eof, []⟩).handle.scanning = false ∧
    ((DeviceHandle.mk true).read [5] ⟨.Eof, []⟩).events.count .saneCancel = 1 :=
  (read_scanning_spec ⟨true⟩ [5] ⟨.Eof, []⟩ rfl).1 rfl rfl

/-- C2 (counterexample): a `start_scan` call that returns an error can leave
`scanning = true` — start it on a handle already scanning and let
`sane_start` fail; the claim's "scanning is false afterwards" is violated. -/
theorem start_scan_error_scanning_ce :
    isError ((DeviceHandle.mk true).start_scan
      ⟨.Inval, (.Good, zeroParameters)⟩).result = true ∧
    ((DeviceHandle.mk true).start_scan
      ⟨.Inval, (.Good, zeroParameters)⟩).handle.scanning = true := by
  constructor <;> rfl

/-- C2 (amended): a `start_scan` call entered with `scanning = false` that
returns an error leaves `scanning = false`; a `read` entered with
`scanning = true` whose ABI status is neither `Good` nor `Eof` returns that
status as an error and leaves `scanning = true`. -/
theorem error_state_intact_spec :
    (∀ (h : DeviceHandle) (abi : StartScanAbi), h.scanning = false →
      isError (h.start_scan abi).result = true →
      (h.start_scan abi).handle.scanning = false) ∧
    (∀ (h : DeviceHandle) (buf : List UInt8) (r : AbiReadResponse),
      h.scanning = true → r.status ≠ .Good → r.status ≠ .Eof →
      (h.read buf r).result = .error ⟨r.status⟩ ∧
      (h.read buf r).handle.scanning = true) := by
  constructor
  · intro h abi hs herr
    by_cases hstart : abi.startStatus = .Good
    · cases hp : DeviceHandle.get_parameters abi.paramsResponse with
      | error e => simp [DeviceHandle.start_scan, hstart, hp, hs]
      | ok p => simp [DeviceHandle.start_scan, hstart, hp, isError] at herr
    · simp [DeviceHandle.start_scan, hstart, hs]
  · intro h buf r hs hg he
    cases hst : r.status <;>
      simp_all [DeviceHandle.read, hs, hst]

/-- Witness for `error_state_intact_spec` at concrete inputs. -/
theorem error_state_intact_spec_witness :
    ((DeviceHandle.mk false).start_scan
      ⟨.Inval, (.Good, zeroParameters)⟩).handle.scanning = false ∧
    ((DeviceHandle.mk true).read [] ⟨.IoError, []⟩).result =
      .error ⟨.IoError⟩ ∧
    ((DeviceHandle.mk true).read [] ⟨.IoError, []⟩).handle.scanning = true :=
  ⟨error_state_intact_spec.1 ⟨false⟩ ⟨.Inval, (.Good, zeroParameters)⟩
      rfl rfl,
    (error_state_intact_spec.2 ⟨true⟩ [] ⟨.IoError, []⟩ rfl
      (by decide) (by decide)).1,
    (error_state_intact_spec.2 ⟨true⟩ [] ⟨.IoError, []⟩ rfl
      (by decide) (by decide)).2⟩

/-- C4: `read` with `scanning = false` returns `Ok(None)`, makes no ABI
call, and leaves the handle and the caller's buffer unchanged. -/
theorem read_not_scanning_spec (h : DeviceHandle) (buf : List UInt8)
    (r : AbiReadResponse) (hs : h.scanning = false) :
    h.read buf r = ⟨.ok none, h, buf, []⟩ := by
  simp [DeviceHandle.read, hs]

/-- Witness for `read_not_scanning_spec` at a concrete input. -/
theorem read_not_scanning_spec_witness :
    (DeviceHandle.mk false).read [1, 2] ⟨.Good, [9]⟩ =
      ⟨.ok none, ⟨false⟩, [1, 2], []⟩ :=
  read_not_scanning_spec ⟨false⟩ [1, 2] ⟨.Good, [9]⟩ rfl

/-- C9: when `sane_start` succeeds but the parameter fetch inside
`start_scan` fails, `start_scan` returns the parameter-fetch error, leaves
`scanning = false`, does not invoke `sane_cancel`, and a later drop of the
handle only closes the device. -/
theorem start_scan_param_error_spec (h : DeviceHandle) (abi : StartScanAbi)
    (hs : h.scanning = false) (hstart : abi.startStatus = .Good)
    (hparam : abi.paramsResponse.1 ≠ .Good) :
    (h.start_scan abi).result = .error ⟨abi.paramsResponse.1⟩ ∧
    (h.start_scan abi).handle.scanning = false ∧
    (h.start_scan abi).events.count .saneCancel = 0 ∧
    (h.start_scan abi).handle.dropEvents = [.saneClose] := by
  simp [DeviceHandle.start_scan, DeviceHandle.get_parameters,
    DeviceHandle.dropEvents, hstart, hparam, hs]

/-- Witness for `start_scan_param_error_spec` at a concrete input. -/
theorem start_scan_param_error_spec_witness :
    ((DeviceHandle.mk false).start_scan
      ⟨.Good, (.IoError, zeroParameters)⟩).result = .error ⟨.IoError⟩ ∧
    ((DeviceHandle.mk false).start_scan
      ⟨.Good, (.IoError, zeroParameters)⟩).handle.scanning = false ∧
    ((DeviceHandle.mk false).start_scan
      ⟨.Good, (.IoError, zeroParameters)⟩).handle.dropEvents =
      [.saneClose] :=
  ⟨(start_scan_param_error_spec ⟨false⟩ _ rfl rfl (by decide)).1,
    (start_scan_param_error_spec ⟨false⟩ _ rfl rfl (by decide)).2.1,
    (start_scan_param_error_spec ⟨false⟩ _ rfl rfl (by decide)).2.2.2⟩

/-- C3 (code bug): when the option-count query succeeds (status `Good`,
count 2) but the descriptor pointer for index 1 is null, `get_options`
returns an error wrapping status `Good` — the `status` variable reused at
the null-descriptor check still holds the `Good` of the count query — so not
every returned `Error` wraps a status different from `Good`. -/
theorem get_options_null_descriptor_error_good :
    DeviceHandle.get_options ⟨(.Good, 2), fun _ => .none⟩ =
      .error ⟨.Good⟩ := by
  rfl

/-- Helper: mapping `option_idx` over a successful descriptor-fetch loop
yields exactly the index list. -/
theorem getOptionsLoop_map_idx (status : Status)
    (descriptor : Int → Option OptionDescriptor) :
    ∀ idxs : List Int, (∀ i ∈ idxs, (descriptor i).isSome = true) →
      Except.map (List.map DeviceOption.option_idx)
        (getOptionsLoop status descriptor idxs) = .ok idxs := by
  intro idxs
  induction idxs with
  | nil => intro _; simp [getOptionsLoop, Except.map]
  | cons i rest ih =>
    intro hall
    obtain ⟨d, hd⟩ :=
      Option.isSome_iff_exists.mp (hall i (by simp))
    have hrest := ih (fun j hj => hall j (by simp [hj]))
    cases hloop : getOptionsLoop status descriptor rest with
    | error e => simp [hloop, Except.map] at hrest
    | ok opts =>
      simp only [hloop, Except.map] at hrest
      simp [getOptionsLoop, hd, hloop, Except.map, mkDeviceOption]
      simpa using hrest

/-- C5: a successful `get_options` whose option-count query yields `N ≥ 1`
returns exactly `N - 1` options whose `option_idx` fields are
`1, 2, …, N - 1` in order. -/
theorem get_options_indices_spec (abi : GetOptionsAbi) (n : Int)
    (hcount : abi.countResponse = (.Good, n)) (hn : 1 ≤ n)
    (hdesc : ∀ i, 1 ≤ i → i < n → (abi.descriptor i).isSome = true) :
    Except.map (List.map DeviceOption.option_idx)
      (DeviceHandle.get_options abi) =
      .ok ((List.range (n - 1).toNat).map (fun (i : Nat) => (i : Int) + 1)) ∧
    ∀ opts, DeviceHandle.get_options abi = .ok opts →
      opts.length = (n - 1).toNat := by
  have hall : ∀ i ∈ optionIndices n, (abi.descriptor i).isSome = true := by
    intro i hi
    simp only [optionIndices, List.mem_map, List.mem_range] at hi
    obtain ⟨k, hk, rfl⟩ := hi
    refine hdesc _ ?_ ?_ <;> omega
  have hmap : Except.map (List.map DeviceOption.option_idx)
      (DeviceHandle.get_options abi) = .ok (optionIndices n) := by
    simp only [DeviceHandle.get_options, hcount]
    rw [if_neg (by simp)]
    exact getOptionsLoop_map_idx .Good abi.descriptor (optionIndices n) hall
  refine ⟨hmap, fun opts hopts => ?_⟩
  rw [hopts] at hmap
  simp only [Except.map, Except.ok.injEq] at hmap
  have hlen := congrArg List.length hmap
  rw [List.length_map] at hlen
  rw [hlen]
  simp only [optionIndices, List.length_map, List.length_range]

/-- Witness for `get_options_indices_spec`: count 3 yields indices 1 and
2. -/
theorem get_options_indices_spec_witness :
    Except.map (List.map DeviceOption.option_idx)
      (DeviceHandle.get_options
        ⟨(.Good, 3), fun _ => some ⟨[], [], [], .Bool, .None, 4, 0, .none⟩⟩) =
      .ok [1, 2] := by
  have := get_options_indices_spec
    ⟨(.Good, 3), fun _ => some ⟨[], [], [], .Bool, .None, 4, 0, .none⟩⟩ 3
    rfl (by decide) (fun i _ _ => rfl)
  simpa using this.1

/-- C8 (counterexample): the decoded range constraint does not denote the
inclusive integer range from `min` to `max`: the decoder stores a half-open
Rust `Range`, so for the descriptor `min = 0, max = 5, quant = 1` the legal
SANE value 5 is not contained in the stored range. -/
theorem range_constraint_not_inclusive_ce :
    decodeConstraint (.range 0 5 1) = .Range ⟨0, 5⟩ 1 ∧
    (RustRange.mk 0 5).containsInt 5 = false ∧
    (0 : Int) ≤ 5 ∧ (5 : Int) ≤ 5 := by
  refine ⟨rfl, by decide, by decide, by decide⟩

/-- C8 (amended): the constraint decoder preserves lengths and contents for
all four tags — a word list of length `L` followed by `L` values decodes to
exactly those values with the length word stripped; a string list decodes to
exactly the strings before the null-pointer sentinel; a range descriptor
decodes to a constraint carrying exactly `min`, `max` and `quant`, stored as
the half-open Rust range `min..max` (so `max` itself is outside the stored
range's membership); a none descriptor decodes to `None`. -/
theorem constraint_decoder_spec :
    (∀ (vals rest : List Int), vals.length < 2147483648 →
      decodeConstraint (.wordList ((vals.length : Int) :: (vals ++ rest))) =
        .WordList vals) ∧
    (∀ (strs : List CStr) (rest : List (Option CStr)),
      decodeConstraint (.stringList (strs.map some ++ .none :: rest)) =
        .StringList strs) ∧
    (∀ min max quant : Int,
      decodeConstraint (.range min max quant) = .Range ⟨min, max⟩ quant ∧
      ∀ x : Int, (RustRange.mk min max).containsInt x = true ↔
        min ≤ x ∧ x < max) ∧
    decodeConstraint .none = .None := by
  refine ⟨fun vals rest hlen => ?_, fun strs rest => ?_,
    fun min max quant => ⟨rfl, fun x => ?_⟩, rfl⟩
  · have husize : usizeOfI32 (vals.length : Int) = vals.length := by
      simp only [usizeOfI32]
      omega
    simp only [decodeConstraint, husize, OptionConstraint.WordList.injEq]
    induction vals with
    | nil => simp
    | cons a t ih => simp [ih]
  · simp only [decodeConstraint, OptionConstraint.StringList.injEq]
    induction strs with
    | nil => simp
    | cons s t ih => simp [ih]
  · simp [RustRange.containsInt]

/-- Witness for `constraint_decoder_spec` at concrete descriptor
memories. -/
theorem constraint_decoder_spec_witness :
    decodeConstraint (.wordList [2, 10, 20]) = .WordList [10, 20] ∧
    decodeConstraint (.stringList [some [97], .none]) = .StringList [[97]] ∧
    decodeConstraint (.range 0 5 1) = .Range ⟨0, 5⟩ 1 ∧
    decodeConstraint .none = .None := by
  refine ⟨?_, ?_, (constraint_decoder_spec.2.2.1 0 5 1).1,
    constraint_decoder_spec.2.2.2⟩
  · have := constraint_decoder_spec.1 [10, 20] [] (by decide)
    simpa using this
  · have := constraint_decoder_spec.2.1 [[97]] []
    simpa using this

/-- C7 (counterexample): after a successful get-value call filling the
buffer with `[0, 1, 0, 0]` — the nonzero 32-bit value 256 — `get_option` on
a `Bool` option returns `false`: the code reads only the first byte, not the
first 4 bytes as a 32-bit boolean. -/
theorem get_option_bool_nonzero_word_ce :
    (DeviceHandle.get_option (fun _ => (.Good, [0, 1, 0, 0]))
      boolOption).result = .ok (.bool false) ∧
    i32At [0, 1, 0, 0] = some 256 ∧ (256 : Int) ≠ 0 := by
  refine ⟨rfl, by decide, by decide⟩

/-- C7 (amended): for a `Bool` option, `get_option` passes a zeroed buffer
of exactly `opt.size` bytes to the ABI get-value call and, on success,
decodes the value from the first byte of the buffer only: byte 0 is
`false`, byte 1 is `true` (any other first byte is an undefined-behaviour
`bool` load). -/
theorem get_option_bool_spec (abi : List UInt8 → Status × List UInt8)
    (opt : DeviceOption) (value : List UInt8) (b : UInt8)
    (htype : opt.type_ = .Bool)
    (habi : abi (List.replicate opt.size 0) = (.Good, value))
    (hhead : value.head? = some b) (hb : b = 0 ∨ b = 1) :
    (DeviceHandle.get_option abi opt).passedBuf =
      List.replicate opt.size 0 ∧
    (DeviceHandle.get_option abi opt).result = .ok (.bool (b == 1)) := by
  rcases hb with rfl | rfl <;>
    simp [DeviceHandle.get_option, habi, htype, hhead]

/-- Witness for `get_option_bool_spec` at a concrete input. -/
theorem get_option_bool_spec_witness :
    (DeviceHandle.get_option (fun _ => (.Good, [1, 0, 0, 0]))
      boolOption).passedBuf = List.replicate 4 0 ∧
    (DeviceHandle.get_option (fun _ => (.Good, [1, 0, 0, 0]))
      boolOption).result = .ok (.bool true) := by
  have := get_option_bool_spec (fun _ => (.Good, [1, 0, 0, 0])) boolOption
    [1, 0, 0, 0] 1 rfl rfl rfl (Or.inr rfl)
  simpa using this

/-- Helper: taking the length of the first summand from an append returns
exactly the first summand (the `&buf[0..written]` slice after the ABI wrote
`written` bytes at the front). -/
theorem take_length_append {α : Type} (l₁ l₂ : List α) :
    (l₁ ++ l₂).take l₁.length = l₁ := by
  induction l₁ with
  | nil => simp
  | cons a t ih => simp [ih]

/-- Helper: a loop-continuing `read` — status `Good`, or `Eof` with a
nonempty chunk — returns the chunk length and leaves the handle scanning. -/
theorem read_continue_eq (h : DeviceHandle) (buf : List UInt8)
    (r : AbiReadResponse) (hs : h.scanning = true)
    (hr : r.status = .Good ∨ r.status = .Eof ∧ r.chunk ≠ []) :
    h.read buf r = ⟨.ok (some r.chunk.length), h,
      r.chunk ++ buf.drop r.chunk.length, [.saneRead]⟩ := by
  rcases hr with hg | ⟨he, hc⟩
  · simp [DeviceHandle.read, hs, hg]
  · have hlen : r.chunk.length ≠ 0 := by simpa using hc
    simp [DeviceHandle.read, hs, he, hlen]

/-- Helper: behaviour of the `read_to_vec` loop on a response list made of
loop-continuing responses followed by one stopping response (end-of-stream
with no bytes, or a non-`Good`/non-`Eof` error): the image accumulates
exactly the concatenated chunks, and the handle ends not scanning iff the
stop was the end-of-stream case. -/
theorem readToVecLoop_append_spec (stop : AbiReadResponse)
    (hstop : stop.status = .Eof ∧ stop.chunk = [] ∨
      stop.status ≠ .Good ∧ stop.status ≠ .Eof) :
    ∀ (rs : List AbiReadResponse) (h : DeviceHandle) (buf image : List UInt8),
      h.scanning = true →
      (∀ r ∈ rs, r.status = .Good ∨ r.status = .Eof ∧ r.chunk ≠ []) →
      (readToVecLoop h buf image (rs ++ [stop])).image =
        image ++ (rs.map AbiReadResponse.chunk).flatten ∧
      ((readToVecLoop h buf image (rs ++ [stop])).handle.scanning =
        if stop.status = .Eof then false else true) := by
  intro rs
  induction rs with
  | nil =>
    intro h buf image hs _
    rcases hstop with ⟨he, hc⟩ | ⟨hg, he⟩
    · simp [readToVecLoop, DeviceHandle.read, hs, he, hc]
    · have hread : h.read buf stop = ⟨.error ⟨stop.status⟩, h,
          stop.chunk ++ buf.drop stop.chunk.length, [.saneRead]⟩ := by
        cases hst : stop.status <;> simp_all [DeviceHandle.read, hs]
      simp [readToVecLoop, hread, hs, he]
  | cons r rest ih =>
    intro h buf image hs hgood
    have hread := read_continue_eq h buf r hs (hgood r (by simp))
    have hih := ih h (r.chunk ++ buf.drop r.chunk.length) (image ++ r.chunk)
      hs (fun x hx => hgood x (by simp [hx]))
    simp only [List.cons_append, readToVecLoop, hread, List.append_eq]
    simp only [take_length_append]
    rw [hih.1]
    refine ⟨by simp, ?_⟩
    rw [hih.2]

/-- C6: `read_to_vec` pre-sizes its output to `bytes_per_line × lines`,
loops `read` over a 1 MiB working buffer appending each returned chunk, and
stops at the no-bytes sentinel; an error status mid-loop ends accumulation
silently, returning the bytes gathered so far as a success. In the
end-of-stream case the handle is no longer scanning afterwards. -/
theorem read_to_vec_spec (h : DeviceHandle) (pr : Status × Parameters)
    (rs : List AbiReadResponse) (stop : AbiReadResponse)
    (hs : h.scanning = true) (hp : pr.1 = .Good)
    (hgood : ∀ r ∈ rs,
      (r.status = .Good ∨ r.status = .Eof ∧ r.chunk ≠ []) ∧
      r.chunk.length ≤ 1024 * 1024)
    (hstop : stop.status = .Eof ∧ stop.chunk = [] ∨
      stop.status ≠ .Good ∧ stop.status ≠ .Eof) :
    (h.read_to_vec pr (rs ++ [stop])).imageCapacity =
      usizeOfI32 pr.2.bytes_per_line * usizeOfI32 pr.2.lines ∧
    (h.read_to_vec pr (rs ++ [stop])).workBufLen = 1024 * 1024 ∧
    (h.read_to_vec pr (rs ++ [stop])).result =
      .ok ((rs.map AbiReadResponse.chunk).flatten) ∧
    (stop.status = .Eof →
      (h.read_to_vec pr (rs ++ [stop])).handle.scanning = false) := by
  have hloop := readToVecLoop_append_spec stop hstop rs h
    (List.replicate (1024 * 1024) 0) [] hs (fun r hr => (hgood r hr).1)
  have hparams : DeviceHandle.get_parameters pr = .ok pr.2 := by
    simp [DeviceHandle.get_parameters, hp]
  refine ⟨?_, ?_, ?_, fun heof => ?_⟩
  · simp only [DeviceHandle.read_to_vec, hparams]
  · simp only [DeviceHandle.read_to_vec, hparams, List.length_replicate]
  · simp only [DeviceHandle.read_to_vec, hparams]
    rw [hloop.1]
    simp only [List.nil_append]
  · simp only [DeviceHandle.read_to_vec, hparams]
    rw [hloop.2, if_pos heof]

/-- Witness for `read_to_vec_spec`: three `(Good, 1024)` reads then
`(Eof, 0)` yield exactly 3072 bytes and a handle that is no longer
scanning. -/
theorem read_to_vec_spec_witness :
    ((DeviceHandle.mk true).read_to_vec (.Good, ⟨.Gray, 0, 1024, 1024, 3, 8⟩)
      [goodKilobyte, goodKilobyte, goodKilobyte, ⟨.Eof, []⟩]).result =
      .ok (List.replicate 3072 7) ∧
    ((DeviceHandle.mk true).read_to_vec (.Good, ⟨.Gray, 0, 1024, 1024, 3, 8⟩)
      [goodKilobyte, goodKilobyte, goodKilobyte, ⟨.Eof, []⟩]).handle.scanning =
      false ∧
    ((DeviceHandle.mk true).read_to_vec (.Good, ⟨.Gray, 0, 1024, 1024, 3, 8⟩)
      [goodKilobyte, goodKilobyte, goodKilobyte, ⟨.Eof, []⟩]).imageCapacity =
      3072 := by
  have hjoin : (([goodKilobyte, goodKilobyte, goodKilobyte].map
      AbiReadResponse.chunk).flatten : List UInt8) =
      List.replicate 3072 7 := by
    show List.replicate 1024 (7 : UInt8) ++
      (List.replicate 1024 7 ++ (List.replicate 1024 7 ++ [])) =
      List.replicate 3072 7
    rw [List.append_nil, ← List.replicate_add, ← List.replicate_add]
  have hgoodK : (goodKilobyte.status = .Good ∨
      goodKilobyte.status = .Eof ∧ goodKilobyte.chunk ≠ []) ∧
      goodKilobyte.chunk.length ≤ 1024 * 1024 :=
    ⟨Or.inl rfl, by simp only [goodKilobyte, List.length_replicate]; norm_num⟩
  have := read_to_vec_spec ⟨true⟩ (.Good, ⟨.Gray, 0, 1024, 1024, 3, 8⟩)
    [goodKilobyte, goodKilobyte, goodKilobyte] ⟨.Eof, []⟩ rfl rfl
    (by
      intro r hr
      simp only [List.mem_cons, List.not_mem_nil, or_false] at hr
      rcases hr with rfl | rfl | rfl <;> exact hgoodK)
    (Or.inl ⟨rfl, rfl⟩)
  refine ⟨?_, this.2.2.2 rfl, ?_⟩
  · rw [show ([goodKilobyte, goodKilobyte, goodKilobyte, (⟨.Eof, []⟩ :
        AbiReadResponse)] : List AbiReadResponse) =
      [goodKilobyte, goodKilobyte, goodKilobyte] ++ [⟨.Eof, []⟩] from rfl]
    rw [this.2.2.1, hjoin]
  · rw [show ([goodKilobyte, goodKilobyte, goodKilobyte, (⟨.Eof, []⟩ :
        AbiReadResponse)] : List AbiReadResponse) =
      [goodKilobyte, goodKilobyte, goodKilobyte] ++ [⟨.Eof, []⟩] from rfl]
    rw [this.1]
    decide

/-- C10: `init_1_0` passes version code `0x01000000` to `init`, computed as
`(1 << 24) | (0 << 16) | (0 & 0xffff)` in i32 arithmetic. -/
theorem init_1_0_version_code_spec :
    Sane.init_1_0_versionCode = 0x01000000 ∧
    ∀ s, Sane.init_1_0 s = Sane.init 0x01000000 s := by
  have hv : Sane.init_1_0_versionCode = 0x01000000 := by decide
  exact ⟨hv, fun s => by unfold Sane.init_1_0; rw [hv]⟩

end SaneScan
